/-
  Verification of the game-of-life tick engine (src/lib.rs).

  The Rust data model and operations are shallowly embedded below:
  `Vec<Cell>` becomes `List Cell`, `usize` arithmetic becomes `Nat`
  arithmetic (the code's index expressions never underflow under the
  guards it uses, mirrored exactly), `grid.get(i)` becomes `List.get?`,
  the `assert_eq!` in `Game::new` (a panic on mismatched custom grid
  dimensions) becomes an `Except` error, and the ambient random source
  of `init_rand` becomes an explicit stream of boolean draws.
-/
import Mathlib

namespace GameOfLife

/-- `LivingState` from src/lib.rs. -/
inductive LivingState where
  | remains
  | reproduction
deriving DecidableEq, Repr

/-- `DeathState` from src/lib.rs. -/
inductive DeathState where
  | remains
  | overpopulation
  | underpopulation
deriving DecidableEq, Repr

/-- `Cell` from src/lib.rs. -/
inductive Cell where
  | alive (s : LivingState)
  | dead (s : DeathState)
deriving DecidableEq, Repr

/-- `type Grid = Vec<Cell>` from src/lib.rs. -/
abbrev Grid := List Cell

/-- `struct Game` from src/lib.rs (field order as in the source). -/
structure Game where
  height : Nat
  width : Nat
  grid : Grid
deriving DecidableEq, Repr

/-- The `if let Some(&Cell::Alive(_)) = grid.get(idx)` test used throughout
`live_neighbour_count1`: true when index `idx` is in bounds and holds an
`Alive` cell, false otherwise (out-of-bounds lookups contribute nothing). -/
def aliveAt (g : Grid) (idx : Nat) : Bool :=
  match g.get? idx with
  | some (Cell.alive _) => true
  | _ => false

/-- `Game::live_neighbour_count1` from src/lib.rs.  Each `count += 1`
inside a guard becomes a guarded summand, in the same order and with the
same index expressions and boundary guards as the source. -/
def live_neighbour_count1 (G : Game) (row col : Nat) : Nat :=
  (if 0 < col then
      (if 0 < row then (aliveAt G.grid ((row - 1) * G.width + col - 1)).toNat else 0)
    + (aliveAt G.grid (row * G.width + (col - 1))).toNat
    + (if row < G.height - 1 then (aliveAt G.grid ((row + 1) * G.width + (col - 1))).toNat else 0)
   else 0)
  + (if col < G.width - 1 then
      (if 0 < row then (aliveAt G.grid ((row - 1) * G.width + (col + 1))).toNat else 0)
    + (aliveAt G.grid (row * G.width + (col + 1))).toNat
    + (if row < G.height - 1 then (aliveAt G.grid ((row + 1) * G.width + (col + 1))).toNat else 0)
     else 0)
  + (if row < G.height - 1 then (aliveAt G.grid ((row + 1) * G.width + col)).toNat else 0)
  + (if 0 < row then (aliveAt G.grid ((row - 1) * G.width + col)).toNat else 0)

/-- The `alive` flag computed inside `Game::compute_next`
(`if let Cell::Alive(_) = cell { true } else { false }`). -/
def cellIsAlive (c : Cell) : Bool :=
  match c with
  | .alive _ => true
  | .dead _ => false

/-- The per-cell transition `match` inside `Game::compute_next`:
arms `0..=1 if alive`, `4..=8 if alive`, `3 if !alive`, then the
cause-collapsing fallthrough, in source order. -/
def next_state (cell : Cell) (neighbour_count : Nat) : Cell :=
  if neighbour_count ≤ 1 ∧ cellIsAlive cell then Cell.dead .underpopulation
  else if 4 ≤ neighbour_count ∧ neighbour_count ≤ 8 ∧ cellIsAlive cell then
    Cell.dead .overpopulation
  else if neighbour_count = 3 ∧ ¬ cellIsAlive cell then Cell.alive .reproduction
  else
    match cell with
    | .alive .reproduction => Cell.alive .remains
    | .dead .overpopulation => Cell.dead .remains
    | .dead .underpopulation => Cell.dead .remains
    | c => c

/-- `Game::compute_next` from src/lib.rs: the denotation of the rayon
`into_par_iter().enumerate().map(..).collect()` over a clone of the
current grid — a per-index map over the snapshot, where index `x`
decodes to `(row, col) = (x / width, x % width)`. -/
def compute_next (G : Game) : Grid :=
  G.grid.enum.map fun p =>
    next_state p.2 (live_neighbour_count1 G (p.1 / G.width) (p.1 % G.width))

/-- `Game::tick` from src/lib.rs: replace the owned grid with `compute_next`. -/
def tick (G : Game) : Game :=
  { G with grid := compute_next G }

/-- `Game::get_grid` from src/lib.rs. -/
def get_grid (G : Game) : Grid :=
  G.grid

/-- `GridInitialization` from src/lib.rs.  The `f64` probability of
`Random` is replaced by the stream of per-cell boolean outcomes that
`rand::thread_rng().gen_bool(probability)` would produce. -/
inductive GridInitialization where
  | random (draw : Nat → Bool)
  | custom (grid : Grid)

/-- The construction-time failure: `Game::new`'s `assert_eq!` panics when a
custom grid's length mismatches `width * height`; the panic is embedded as
this error value surfaced to the caller. -/
inductive GameError where
  | dimensionMismatch
deriving DecidableEq, Repr

/-- `Game::init_rand` from src/lib.rs: one cell per index in
`0..width*height`, alive iff the random draw for that index is true. -/
def init_rand (width height : Nat) (draw : Nat → Bool) : Grid :=
  (List.range (width * height)).map fun i =>
    if draw i then Cell.alive .remains else Cell.dead .remains

/-- `Game::new` from src/lib.rs.  The `assert_eq!(width * height, grid.len())`
on the `Custom` arm is embedded as an `Except` failure. -/
def Game.new (width height : Nat) (init : GridInitialization) : Except GameError Game :=
  match init with
  | .random draw => .ok { height := height, width := width, grid := init_rand width height draw }
  | .custom grid =>
      if width * height = grid.length then
        .ok { height := height, width := width, grid := grid }
      else
        .error .dimensionMismatch

/-- Iterating `tick` from a starting state (`k` generations). -/
def tickN (G : Game) : Nat → Game
  | 0 => G
  | k + 1 => tick (tickN G k)

/-- The initial grid of the `test_game_rules` test in src/lib.rs
(3 wide, 4 high, alive cells at (x=col, y=row) in the listed set). -/
def testStartGrid : Grid :=
  (List.range (3 * 4)).map fun x =>
    let xy := (x % 3, x / 3)
    if xy = (1, 0) ∨ xy = (2, 1) ∨ xy = (0, 2) ∨ xy = (1, 2) ∨ xy = (2, 2) then
      Cell.alive .remains
    else
      Cell.dead .remains

/-- The expected post-tick grid of the `test_game_rules` test in src/lib.rs. -/
def testExpectedGrid : Grid :=
  (List.range (3 * 4)).map fun x =>
    let xy := (x % 3, x / 3)
    if xy = (2, 1) ∨ xy = (1, 2) ∨ xy = (2, 2) then Cell.alive .remains
    else if xy = (0, 1) ∨ xy = (1, 3) then Cell.alive .reproduction
    else if xy = (1, 0) ∨ xy = (0, 2) then Cell.dead .underpopulation
    else Cell.dead .remains

/-- The length of `compute_next` always equals the length of the input grid. -/
theorem compute_next_length (G : Game) : (compute_next G).length = G.grid.length := by
  simp [compute_next, List.enum_eq_enumFrom]

/-- Claim C4: on the 3-wide, 4-high reference grid with alive cells exactly
at `{(1,0),(2,1),(0,2),(1,2),(2,2)}` (x=col, y=row) and all cells tagged
`Remains`, one tick yields `(2,1),(1,2),(2,2)` as `Alive(Remains)`,
`(0,1),(1,3)` as `Alive(Reproduction)`, `(1,0),(0,2)` as
`Dead(Underpopulation)`, and every other cell `Dead(Remains)`. -/
theorem reference_scenario_tick :
    get_grid (tick { height := 4, width := 3, grid := testStartGrid }) = testExpectedGrid := by
  decide

/-- Claim C10: `tick` modifies only the grid field — the width and height
of the engine after `tick` equal their values before. -/
theorem tick_preserves_dimensions (G : Game) :
    (tick G).width = G.width ∧ (tick G).height = G.height :=
  ⟨rfl, rfl⟩

/-- Claim C6: construction with `Custom(grid)` fails with `DimensionMismatch`
whenever `grid.len() ≠ width*height`, and succeeds returning an engine
holding exactly that grid whenever `grid.len() = width*height`. -/
theorem custom_init_dimension_check (w h : Nat) (g : Grid) :
    (g.length ≠ w * h → Game.new w h (.custom g) = .error .dimensionMismatch) ∧
    (g.length = w * h → Game.new w h (.custom g) = .ok { height := h, width := w, grid := g }) := by
  constructor
  · intro hne
    simp only [Game.new]
    rw [if_neg (fun hc => hne hc.symm)]
  · intro heq
    simp [Game.new, heq]

/-- Witness for C6 at concrete inputs: a 2×2 `Custom` construction with a
3-cell grid fails with `DimensionMismatch`, while a 1×2 construction with a
2-cell grid succeeds holding exactly that grid. -/
theorem custom_init_dimension_check_witness :
    Game.new 2 2 (.custom [Cell.dead .remains, Cell.dead .remains, Cell.dead .remains])
      = .error .dimensionMismatch ∧
    Game.new 1 2 (.custom [Cell.alive .remains, Cell.dead .remains])
      = .ok { height := 2, width := 1, grid := [Cell.alive .remains, Cell.dead .remains] } :=
  ⟨(custom_init_dimension_check 2 2 _).1 (by decide),
   (custom_init_dimension_check 1 2 _).2 (by decide)⟩

/-- Counterexample to claim C7 as stated: constructing with `width = 0`
(here `Custom` with the matching empty grid) succeeds instead of failing —
degenerate dimensions are not rejected. -/
theorem degenerate_width_accepted :
    Game.new 0 1 (.custom []) = .ok { height := 1, width := 0, grid := [] } := by
  rfl

/-- Claim C7 (amended): construction does not reject degenerate dimensions.
With `width = 0` or `height = 0`, `Random` construction succeeds with an
empty grid, and `Custom` construction succeeds exactly when the supplied
grid is empty (the engine then holds the empty grid); a nonempty custom
grid fails only through the ordinary `DimensionMismatch` length check. -/
theorem degenerate_dims_behavior (w h : Nat) (draw : Nat → Bool) (g : Grid)
    (hwh : w = 0 ∨ h = 0) :
    Game.new w h (.random draw) = .ok { height := h, width := w, grid := [] } ∧
    (Game.new w h (.custom g) = .ok { height := h, width := w, grid := g } ↔ g = []) ∧
    (g ≠ [] → Game.new w h (.custom g) = .error .dimensionMismatch) := by
  have hz : w * h = 0 := by rcases hwh with rfl | rfl <;> simp
  refine ⟨?_, ?_, ?_⟩
  · simp [Game.new, init_rand, hz]
  · constructor
    · intro hok
      rcases g with _ | ⟨c, g⟩
      · rfl
      · simp [Game.new, hz] at hok
    · rintro rfl
      simp [Game.new, hz]
  · intro hne
    have hg : g.length ≠ 0 := by simpa using hne
    simp only [Game.new, hz]
    rw [if_neg (fun hc => hg hc.symm)]

/-- Witness for C7's amended claim at concrete inputs (`width = 0`,
`height = 1`): the nonempty custom grid is rejected only by the length
check, and the matching random construction succeeds with an empty grid. -/
theorem degenerate_dims_behavior_witness :
    Game.new 0 1 (.custom [Cell.dead .remains]) = .error .dimensionMismatch ∧
    Game.new 0 1 (.random (fun _ => true)) = .ok { height := 1, width := 0, grid := [] } :=
  ⟨(degenerate_dims_behavior 0 1 (fun _ => true) [Cell.dead .remains] (Or.inl rfl)).2.2
      (by decide),
   (degenerate_dims_behavior 0 1 (fun _ => true) [Cell.dead .remains] (Or.inl rfl)).1⟩

/-- Claim C5: for every successfully constructed engine and any number `k` of
subsequent ticks, the grid returned by `get_grid` has length exactly
`width * height`. -/
theorem grid_length_invariant (w h : Nat) (init : GridInitialization) (G : Game)
    (hnew : Game.new w h init = .ok G) :
    ∀ k, (get_grid (tickN G k)).length = w * h := by
  have hbase : G.grid.length = w * h := by
    cases init with
    | random draw =>
        cases hnew
        simp [init_rand]
    | custom g =>
        by_cases hc : w * h = g.length
        · rw [Game.new] at hnew
          simp only [hc, if_pos rfl] at hnew
          cases hnew
          exact hc.symm
        · rw [Game.new] at hnew
          simp [hc] at hnew
  intro k
  induction k with
  | zero => exact hbase
  | succ k ih =>
      simpa [tickN, tick, get_grid, compute_next_length] using ih

/-- Witness for C5 at a concrete input: a 1×2 custom engine still has a
2-cell grid after three ticks. -/
theorem grid_length_invariant_witness :
    (get_grid (tickN ⟨2, 1, [Cell.alive .remains, Cell.dead .remains]⟩ 3)).length = 1 * 2 :=
  grid_length_invariant 1 2 (.custom [Cell.alive .remains, Cell.dead .remains]) _ rfl 3

/-- Claim C2: for every current cell and every live-neighbor count `n ≤ 8`,
the transition rule yields exactly the table: alive with `n ∈ {0,1}` dies of
underpopulation, alive with `n ∈ 4..8` dies of overpopulation, dead with
`n = 3` becomes `Alive(Reproduction)`, alive with `n ∈ {2,3}` stays
`Alive(Remains)` (collapsing `Reproduction`), dead with `n ≠ 3` stays
`Dead(Remains)` (collapsing the death causes); these five cases cover every
cell/count pair, so no other branch exists. -/
theorem transition_rule_table (c : Cell) (n : Nat) (hn : n ≤ 8) :
    (cellIsAlive c = true → n ≤ 1 → next_state c n = Cell.dead .underpopulation) ∧
    (cellIsAlive c = true → 4 ≤ n → next_state c n = Cell.dead .overpopulation) ∧
    (cellIsAlive c = false → n = 3 → next_state c n = Cell.alive .reproduction) ∧
    (cellIsAlive c = true → (n = 2 ∨ n = 3) → next_state c n = Cell.alive .remains) ∧
    (cellIsAlive c = false → n ≠ 3 → next_state c n = Cell.dead .remains) := by
  rcases c with s | s <;> rcases s <;> interval_cases n <;> decide

/-- Witness for C2 at concrete inputs: a lone alive cell dies of
underpopulation, and a dead cell with three neighbors is born. -/
theorem transition_rule_table_witness :
    next_state (Cell.alive .remains) 0 = Cell.dead .underpopulation ∧
    next_state (Cell.dead .overpopulation) 3 = Cell.alive .reproduction :=
  ⟨(transition_rule_table (Cell.alive .remains) 0 (by decide)).1 rfl (by decide),
   (transition_rule_table (Cell.dead .overpopulation) 3 (by decide)).2.2.1 rfl rfl⟩

/-- Claim C8: the cause sub-state never feeds back into the transition rule —
two current cells agreeing on aliveness produce identical next cells
(including identical sub-state tags) for every neighbor count. -/
theorem substate_no_feedback (c1 c2 : Cell) (n : Nat)
    (h : cellIsAlive c1 = cellIsAlive c2) :
    next_state c1 n = next_state c2 n := by
  rcases c1 with s | s <;> rcases s <;> rcases c2 with t | t <;> rcases t <;>
    first
      | exact absurd h (by decide)
      | rfl

/-- Witness for C8 at a concrete input: `Alive(Remains)` and
`Alive(Reproduction)` transition identically with two live neighbors. -/
theorem substate_no_feedback_witness :
    next_state (Cell.alive .remains) 2 = next_state (Cell.alive .reproduction) 2 :=
  substate_no_feedback (Cell.alive .remains) (Cell.alive .reproduction) 2 rfl

/-- Claim C1: one `tick` replaces the grid (and nothing else) with the
generation computed from the single pre-tick snapshot: the output has the
same length, and the cell at every index `i` is `next_state` of the pre-tick
cell at `i` and the live-neighbor count of `(i / width, i % width)` taken
over the pre-tick grid. -/
theorem tick_simultaneous_update (G : Game)
    (hw : 1 ≤ G.width) (hh : 1 ≤ G.height)
    (hlen : G.grid.length = G.width * G.height) :
    tick G = { height := G.height, width := G.width, grid := compute_next G } ∧
    (tick G).grid.length = G.grid.length ∧
    ∀ i c, G.grid[i]? = some c →
      (tick G).grid[i]? =
        some (next_state c (live_neighbour_count1 G (i / G.width) (i % G.width))) := by
  refine ⟨rfl, compute_next_length G, ?_⟩
  intro i c hc
  simp [tick, compute_next, List.enum_eq_enumFrom, List.getElem?_enumFrom, hc]

/-- Witness for C1 at a concrete input: the single cell of a 1×1 grid is
mapped through `next_state` with its snapshot neighbor count. -/
theorem tick_simultaneous_update_witness :
    (tick ⟨1, 1, [Cell.alive .remains]⟩).grid[0]? =
      some (next_state (Cell.alive .remains)
        (live_neighbour_count1 ⟨1, 1, [Cell.alive .remains]⟩ 0 0)) :=
  (tick_simultaneous_update ⟨1, 1, [Cell.alive .remains]⟩ (by decide) (by decide)
      (by decide)).2.2 0 (Cell.alive .remains) rfl

def mooreOffsets : List (Int × Int) :=
  [(-1, -1), (-1, 0), (-1, 1), (0, -1), (0, 1), (1, -1), (1, 0), (1, 1)]

def spec_live_neighbor_count (g : Grid) (width height row col : Nat) : Nat :=
  mooreOffsets.countP fun d =>
    (0 ≤ (row : Int) + d.1 ∧ (row : Int) + d.1 < (height : Int) ∧
     0 ≤ (col : Int) + d.2 ∧ (col : Int) + d.2 < (width : Int)) ∧
    aliveAt g (((row : Int) + d.1).toNat * width + ((col : Int) + d.2).toNat) = true

theorem guarded_count_term (g : Grid) (w h row col : Nat) (dr dc : Int)
    (cond : Prop) [Decidable cond] (idx : Nat)
    (hcond : cond ↔ (0 ≤ (row : Int) + dr ∧ (row : Int) + dr < (h : Int) ∧
        0 ≤ (col : Int) + dc ∧ (col : Int) + dc < (w : Int)))
    (hidx : cond → idx = ((row : Int) + dr).toNat * w + ((col : Int) + dc).toNat) :
    (if cond then (aliveAt g idx).toNat else 0) =
      if (0 ≤ (row : Int) + dr ∧ (row : Int) + dr < (h : Int) ∧
          0 ≤ (col : Int) + dc ∧ (col : Int) + dc < (w : Int)) ∧
         aliveAt g (((row : Int) + dr).toNat * w + ((col : Int) + dc).toNat) = true
      then 1 else 0 := by
  by_cases hcnd : cond
  · rw [if_pos hcnd, hidx hcnd]
    by_cases hal : aliveAt g (((row : Int) + dr).toNat * w + ((col : Int) + dc).toNat) = true
    · rw [if_pos ⟨hcond.mp hcnd, hal⟩, hal]
      rfl
    · rw [Bool.not_eq_true] at hal
      rw [hal]
      simp
  · rw [if_neg hcnd, if_neg (fun hk => hcnd (hcond.mpr hk.1))]

theorem live_neighbour_count1_flat (G : Game) (row col : Nat) :
    live_neighbour_count1 G row col =
      (if 0 < col ∧ 0 < row then (aliveAt G.grid ((row - 1) * G.width + col - 1)).toNat else 0)
    + (if 0 < col then (aliveAt G.grid (row * G.width + (col - 1))).toNat else 0)
    + (if 0 < col ∧ row < G.height - 1 then
        (aliveAt G.grid ((row + 1) * G.width + (col - 1))).toNat else 0)
    + (if col < G.width - 1 ∧ 0 < row then
        (aliveAt G.grid ((row - 1) * G.width + (col + 1))).toNat else 0)
    + (if col < G.width - 1 then (aliveAt G.grid (row * G.width + (col + 1))).toNat else 0)
    + (if col < G.width - 1 ∧ row < G.height - 1 then
        (aliveAt G.grid ((row + 1) * G.width + (col + 1))).toNat else 0)
    + (if row < G.height - 1 then (aliveAt G.grid ((row + 1) * G.width + col)).toNat else 0)
    + (if 0 < row then (aliveAt G.grid ((row - 1) * G.width + col)).toNat else 0) := by
  rw [live_neighbour_count1]
  by_cases h1 : 0 < col <;> by_cases h2 : 0 < row <;>
    by_cases h3 : row < G.height - 1 <;> by_cases h4 : col < G.width - 1 <;>
    (simp [h1, h2, h3, h4]; try ring)

theorem live_neighbour_count_spec (G : Game) (row col : Nat)
    (hw : 1 ≤ G.width) (hh : 1 ≤ G.height)
    (hlen : G.grid.length = G.width * G.height)
    (hr : row < G.height) (hc : col < G.width) :
    live_neighbour_count1 G row col =
      spec_live_neighbor_count G.grid G.width G.height row col := by
  have enw := guarded_count_term G.grid G.width G.height row col (-1) (-1)
      (0 < col ∧ 0 < row) ((row - 1) * G.width + col - 1)
      (by omega)
      (by intro hcnd
          have e1 : ((row : Int) + -1).toNat = row - 1 := by omega
          have e2 : ((col : Int) + -1).toNat = col - 1 := by omega
          rw [e1, e2, Nat.add_sub_assoc (by omega : 1 ≤ col)])
  have en := guarded_count_term G.grid G.width G.height row col (-1) 0
      (0 < row) ((row - 1) * G.width + col)
      (by omega)
      (by intro hcnd
          have e1 : ((row : Int) + -1).toNat = row - 1 := by omega
          have e2 : ((col : Int) + 0).toNat = col := by omega
          rw [e1, e2])
  have ene := guarded_count_term G.grid G.width G.height row col (-1) 1
      (col < G.width - 1 ∧ 0 < row) ((row - 1) * G.width + (col + 1))
      (by omega)
      (by intro hcnd
          have e1 : ((row : Int) + -1).toNat = row - 1 := by omega
          have e2 : ((col : Int) + 1).toNat = col + 1 := by omega
          rw [e1, e2])
  have ew := guarded_count_term G.grid G.width G.height row col 0 (-1)
      (0 < col) (row * G.width + (col - 1))
      (by omega)
      (by intro hcnd
          have e1 : ((row : Int) + 0).toNat = row := by omega
          have e2 : ((col : Int) + -1).toNat = col - 1 := by omega
          rw [e1, e2])
  have ee := guarded_count_term G.grid G.width G.height row col 0 1
      (col < G.width - 1) (row * G.width + (col + 1))
      (by omega)
      (by intro hcnd
          have e1 : ((row : Int) + 0).toNat = row := by omega
          have e2 : ((col : Int) + 1).toNat = col + 1 := by omega
          rw [e1, e2])
  have esw := guarded_count_term G.grid G.width G.height row col 1 (-1)
      (0 < col ∧ row < G.height - 1) ((row + 1) * G.width + (col - 1))
      (by omega)
      (by intro hcnd
          have e1 : ((row : Int) + 1).toNat = row + 1 := by omega
          have e2 : ((col : Int) + -1).toNat = col - 1 := by omega
          rw [e1, e2])
  have es := guarded_count_term G.grid G.width G.height row col 1 0
      (row < G.height - 1) ((row + 1) * G.width + col)
      (by omega)
      (by intro hcnd
          have e1 : ((row : Int) + 1).toNat = row + 1 := by omega
          have e2 : ((col : Int) + 0).toNat = col := by omega
          rw [e1, e2])
  have ese := guarded_count_term G.grid G.width G.height row col 1 1
      (col < G.width - 1 ∧ row < G.height - 1) ((row + 1) * G.width + (col + 1))
      (by omega)
      (by intro hcnd
          have e1 : ((row : Int) + 1).toNat = row + 1 := by omega
          have e2 : ((col : Int) + 1).toNat = col + 1 := by omega
          rw [e1, e2])
  rw [live_neighbour_count1_flat]
  simp only [spec_live_neighbor_count, mooreOffsets, List.countP_cons, List.countP_nil,
    decide_eq_true_eq]
  rw [enw, ew, esw, ene, ee, ese, es, en]
  ring


/-- The cell that the next generation holds at flat index `x`: `next_state`
of the snapshot cell at `x` with the snapshot neighbor count of
`(x / width, x % width)`.  The shared per-index work of all strategies. -/
def nextCellAt (G : Game) (x : Nat) : Cell :=
  next_state (G.grid.getD x (Cell.dead .remains))
    (live_neighbour_count1 G (x / G.width) (x % G.width))

/-- `compute_next` is the map of `nextCellAt` over all flat indices. -/
theorem compute_next_eq_map_range (G : Game) :
    compute_next G = (List.range G.grid.length).map (nextCellAt G) := by
  apply List.ext_getElem
  · simp [compute_next_length]
  · intro i h1 h2
    simp only [compute_next, List.enum_eq_enumFrom, List.getElem_map, List.getElem_enumFrom,
      List.getElem_range, nextCellAt, List.getD_eq_getElem?_getD, Nat.zero_add]
    rw [List.getElem?_eq_getElem (by simpa using h2)]
    rfl

/-- Modelled from the spec: the Sequential scheduler of §4.3 is absent from
src/ (the code's only strategy is the rayon data-parallel map); per the
spec it iterates every `(row, col)` in row-major order, computes the
neighbor count against the original snapshot, and writes `next_state` into
a separate output buffer at the same index `row * width + col`. -/
def sequential_next (G : Game) : Grid :=
  ((List.range G.height).map fun row =>
    (List.range G.width).map fun col =>
      next_state (G.grid.getD (row * G.width + col) (Cell.dead .remains))
        (live_neighbour_count1 G row col)).flatten

/-- Row-major iteration flattens to a single map over all flat indices. -/
theorem flatten_rowmajor (f : Nat → Cell) (w : Nat) :
    ∀ h : Nat, ((List.range h).map fun r => (List.range w).map fun c => f (r * w + c)).flatten
      = (List.range (h * w)).map f := by
  intro h
  induction h with
  | zero => simp
  | succ h ih =>
      rw [List.range_succ, List.map_append, List.flatten_append, ih, Nat.succ_mul,
        List.range_add, List.map_append, List.map_map]
      simp [Function.comp]

/-- Modelled from the spec: Sequential equals the code's `compute_next`. -/
theorem sequential_next_eq (G : Game) (hlen : G.grid.length = G.width * G.height) :
    sequential_next G = compute_next G := by
  rw [compute_next_eq_map_range, hlen, Nat.mul_comm G.width G.height, ← flatten_rowmajor]
  rw [sequential_next]
  congr 1
  apply List.map_congr_left
  intro row hrow
  apply List.map_congr_left
  intro col hcol
  rw [List.mem_range] at hcol
  have hdiv : (row * G.width + col) / G.width = row := by
    rw [Nat.mul_comm row G.width, Nat.mul_add_div (by omega : 0 < G.width),
      Nat.div_eq_of_lt hcol]
    omega
  have hmod : (row * G.width + col) % G.width = col := by
    rw [Nat.mul_comm row G.width, Nat.mul_add_mod, Nat.mod_eq_of_lt hcol]
  rw [nextCellAt, hdiv, hmod]

/-- Modelled from the spec: one worker's task of the Data-Parallel and
Worker-Pool strategies — compute the next-state cells for the contiguous
flat-index range `[start, start + size)`, reading only the snapshot. -/
def worker_result (G : Game) (start size : Nat) : Grid :=
  (List.range' start size).map (nextCellAt G)

/-- Modelled from the spec: the dispatch of §4.3 — split the flat index
range into contiguous chunks of the given sizes; worker `k` handles the
`k`-th chunk and returns `(k, sub_result)`. -/
def worker_parts (G : Game) : Nat → Nat → List Nat → List (Nat × Grid)
  | _, _, [] => []
  | k, start, s :: rest =>
      (k, worker_result G start s) :: worker_parts G (k + 1) (start + s) rest

/-- Modelled from the spec: Data-Parallel (fork-join) — the chunk results
are joined back into the output buffer in index order. -/
def data_parallel_next (G : Game) (sizes : List Nat) : Grid :=
  ((worker_parts G 0 0 sizes).map Prod.snd).flatten

/-- Modelled from the spec: the Worker-Pool coordinator — collect the
`(worker_index, sub_result)` pairs in channel arrival order, sort them by
worker index, and concatenate the sub-results. -/
def worker_pool_collect (parts : List (Nat × Grid)) : Grid :=
  ((parts.mergeSort fun a b => decide (a.1 ≤ b.1)).map Prod.snd).flatten

/-- Joining the chunk results in dispatch order is the map of `nextCellAt`
over the covered index range. -/
theorem worker_parts_flatten (G : Game) :
    ∀ (sizes : List Nat) (k start : Nat),
      ((worker_parts G k start sizes).map Prod.snd).flatten
        = (List.range' start sizes.sum).map (nextCellAt G) := by
  intro sizes
  induction sizes with
  | nil => intro k start; simp [worker_parts]
  | cons s rest ih =>
      intro k start
      rw [worker_parts]
      simp only [List.map_cons, List.flatten_cons, ih]
      rw [worker_result, ← List.map_append, List.range'_append_1]
      simp [Nat.add_comm]

/-- The worker indices of the dispatch are `k, k+1, …` in order. -/
theorem worker_parts_keys (G : Game) :
    ∀ (sizes : List Nat) (k start : Nat),
      (worker_parts G k start sizes).map Prod.fst = List.range' k sizes.length := by
  intro sizes
  induction sizes with
  | nil => intro k start; simp [worker_parts]
  | cons s rest ih =>
      intro k start
      rw [worker_parts]
      simp [ih, List.range'_succ]

/-- The dispatch list is strictly sorted by worker index. -/
theorem worker_parts_sorted (G : Game) (sizes : List Nat) (k start : Nat) :
    (worker_parts G k start sizes).Pairwise (fun a b => a.1 < b.1) := by
  have hp : ((worker_parts G k start sizes).map Prod.fst).Pairwise (· < ·) := by
    rw [worker_parts_keys]
    exact List.pairwise_lt_range' k sizes.length
  exact List.pairwise_map.mp hp

/-- Sorting any arrival-order permutation of the dispatch by worker index
recovers the dispatch order, so the Worker-Pool output equals the
Data-Parallel output. -/
theorem worker_pool_collect_eq (G : Game) (sizes : List Nat) (parts : List (Nat × Grid))
    (hperm : parts.Perm (worker_parts G 0 0 sizes)) :
    worker_pool_collect parts = data_parallel_next G sizes := by
  have hsortperm : (parts.mergeSort fun a b => decide (a.1 ≤ b.1)).Perm
      (worker_parts G 0 0 sizes) :=
    (List.mergeSort_perm parts _).trans hperm
  have hkeysnodup : ((parts.mergeSort fun a b => decide (a.1 ≤ b.1)).map Prod.fst).Nodup := by
    have hcan : ((worker_parts G 0 0 sizes).map Prod.fst).Nodup := by
      rw [worker_parts_keys]
      exact List.nodup_range' 0 sizes.length
    exact ((hsortperm.map Prod.fst).nodup_iff).mpr hcan
  have hsorted_le : (parts.mergeSort fun a b => decide (a.1 ≤ b.1)).Pairwise
      (fun a b => a.1 ≤ b.1) := by
    have hs := @List.sorted_mergeSort (Nat × Grid) (fun a b => decide (a.1 ≤ b.1))
      (fun a b c hab hbc => by
        simp only [decide_eq_true_eq] at hab hbc ⊢
        omega)
      (fun a b => by
        simp only [Bool.or_eq_true, decide_eq_true_eq]
        omega)
      parts
    exact hs.imp (fun hab => by simpa using hab)
  have hne : (parts.mergeSort fun a b => decide (a.1 ≤ b.1)).Pairwise
      (fun a b => a.1 ≠ b.1) :=
    List.pairwise_map.mp hkeysnodup
  have hsorted_lt : (parts.mergeSort fun a b => decide (a.1 ≤ b.1)).Pairwise
      (fun a b => a.1 < b.1) :=
    (hsorted_le.and hne).imp (fun hk => Nat.lt_of_le_of_ne hk.1 hk.2)
  have hcanon : (parts.mergeSort fun a b => decide (a.1 ≤ b.1)) = worker_parts G 0 0 sizes := by
    haveI : IsAntisymm (Nat × Grid) (fun a b => a.1 < b.1) :=
      ⟨fun a b h1 h2 => absurd (Nat.lt_trans h1 h2) (Nat.lt_irrefl _)⟩
    exact List.eq_of_perm_of_sorted hsortperm hsorted_lt (worker_parts_sorted G sizes 0 0)
  rw [worker_pool_collect, hcanon, data_parallel_next]

/-- Modelled from the spec: Data-Parallel equals the code's `compute_next`
whenever the chunk sizes cover the grid. -/
theorem data_parallel_next_eq (G : Game) (sizes : List Nat)
    (hsum : sizes.sum = G.grid.length) :
    data_parallel_next G sizes = compute_next G := by
  rw [data_parallel_next, worker_parts_flatten, hsum, ← List.range_eq_range',
    compute_next_eq_map_range]

/-- Claim C9: the three execution strategies — Sequential, Data-Parallel,
and Worker-Pool (the latter two for any chunk-size partition covering the
grid and, for Worker-Pool, any channel arrival order of the worker
results) — produce grids identical to the code's `compute_next`,
byte-for-byte including cause sub-states. -/
theorem schedulers_agree (G : Game) (sizes : List Nat) (parts : List (Nat × Grid))
    (hlen : G.grid.length = G.width * G.height)
    (hsum : sizes.sum = G.grid.length)
    (hperm : parts.Perm (worker_parts G 0 0 sizes)) :
    sequential_next G = compute_next G ∧
    data_parallel_next G sizes = compute_next G ∧
    worker_pool_collect parts = compute_next G :=
  ⟨sequential_next_eq G hlen,
   data_parallel_next_eq G sizes hsum,
   (worker_pool_collect_eq G sizes parts hperm).trans (data_parallel_next_eq G sizes hsum)⟩

/-- Witness for C9 at a concrete input: a 2-wide, 1-high engine, two
one-cell chunks, with the worker results arriving in reversed order. -/
theorem schedulers_agree_witness :
    sequential_next ⟨1, 2, [Cell.alive .remains, Cell.alive .remains]⟩ =
      compute_next ⟨1, 2, [Cell.alive .remains, Cell.alive .remains]⟩ ∧
    data_parallel_next ⟨1, 2, [Cell.alive .remains, Cell.alive .remains]⟩ [1, 1] =
      compute_next ⟨1, 2, [Cell.alive .remains, Cell.alive .remains]⟩ ∧
    worker_pool_collect
        [(1, worker_result ⟨1, 2, [Cell.alive .remains, Cell.alive .remains]⟩ 1 1),
         (0, worker_result ⟨1, 2, [Cell.alive .remains, Cell.alive .remains]⟩ 0 1)] =
      compute_next ⟨1, 2, [Cell.alive .remains, Cell.alive .remains]⟩ :=
  schedulers_agree ⟨1, 2, [Cell.alive .remains, Cell.alive .remains]⟩ [1, 1]
    [(1, worker_result ⟨1, 2, [Cell.alive .remains, Cell.alive .remains]⟩ 1 1),
     (0, worker_result ⟨1, 2, [Cell.alive .remains, Cell.alive .remains]⟩ 0 1)]
    (by decide) (by decide) (by decide)

/-- Witness for C3 at a concrete input: the boundary cell `(row 0, col 1)`
of a 2-wide, 1-high grid. -/
theorem live_neighbour_count_spec_witness :
    live_neighbour_count1 ⟨1, 2, [Cell.alive .remains, Cell.dead .remains]⟩ 0 1 =
      spec_live_neighbor_count [Cell.alive .remains, Cell.dead .remains] 2 1 0 1 :=
  live_neighbour_count_spec ⟨1, 2, [Cell.alive .remains, Cell.dead .remains]⟩ 0 1
    (by decide) (by decide) (by decide) (by decide) (by decide)

end GameOfLife
